import Mathlib

/-!
Shallow embedding of the git commit-range extraction and streaming
summarization pipeline of dictybase-docker/dcr-mcp:

* `pkg/worksummary` — `GitAnalyzer` (date parsing via go-dateparser,
  repository cloning via go-git, `ListCommitsInRange`) and
  `OpenAIClient.SummarizeCommitMessages` (streaming consumption).
* `pkg/tools/gitsummary/git_summary.go` — the MCP tool `Handler` and
  `GenerateSummary` orchestration.

External effects (the go-dateparser library, the network clone, the
OpenAI stream, the environment variable, context cancellation) are
modelled as explicit oracle parameters so every definition is an
executable function of its inputs.
-/

deriving instance DecidableEq for Except

namespace DcrMcp

/-- Go's `time.Time`, resolved in the analyzer's timezone, modelled as a
civil day number together with the offset within that day.  Go's zero
time is `⟨0, 0⟩`. -/
structure GoTime where
  day : Int
  timeOfDay : Int
deriving DecidableEq, Repr

/-- `time.Time.IsZero`. -/
def GoTime.isZero (t : GoTime) : Bool :=
  t.day == 0 && t.timeOfDay == 0

/-- Chronological order on instants (lexicographic on day, then offset). -/
def GoTime.leb (a b : GoTime) : Bool :=
  decide (a.day < b.day) || (a.day == b.day && decide (a.timeOfDay ≤ b.timeOfDay))

/-- go-dateparser's `date.Period` granularity marker. -/
inductive DpsPeriod
  | periodNone
  | periodTime
  | day
  | week
  | month
  | year
deriving DecidableEq, Repr

/-- go-dateparser's `date.Date`: a parsed instant plus its granularity. -/
structure DpsDate where
  Time : GoTime
  Period : DpsPeriod
deriving DecidableEq, Repr

/-- go-dateparser's `dps.Configuration` as used by `GitAnalyzer`
(`DefaultTimezone` is absorbed into the parse oracle, which already
produces timezone-resolved instants). -/
structure DpsConfiguration where
  CurrentTime : GoTime
deriving DecidableEq, Repr

/-- `worksummary.GitAnalyzer` (the logger field is omitted: it only
writes diagnostics). -/
structure GitAnalyzer where
  dateConfig : DpsConfiguration
deriving DecidableEq, Repr

/-- The oracle standing for `dps.Parse(ga.dateConfig, s)`: `none` means
the library returned a non-nil error for `s`. -/
def DpsOracle : Type := String → Option DpsDate

/-- Error kinds produced by the pipeline; each constructor corresponds
to one `fmt.Errorf`/validator failure site in the source. -/
inductive GoErr
  | emptyStart
  | unparsableDate
  | emptyRepoURL
  | emptyBranch
  | cloneFailed
  | invalidRangeParams
  | ctxCancelled
  | emptyCommitMsgs
  | streamInitFailed
  | streamRecvFailed
  | validationFailed
  | apiKeyRequired
deriving DecidableEq, Repr

/-- `GitAnalyzer.parseStartDate`: empty input is rejected by the
`required` validator; a parse error or a zero instant is rejected. -/
def parseStartDate (ga : GitAnalyzer) (dpsParse : DpsOracle) (dateStr : String) :
    Except GoErr DpsDate :=
  if dateStr = "" then Except.error GoErr.emptyStart
  else
    match dpsParse dateStr with
    | Option.none => Except.error GoErr.unparsableDate
    | Option.some parsedDate =>
        if parsedDate.Time.isZero then Except.error GoErr.unparsableDate
        else Except.ok parsedDate
  -- the `ga` binder mirrors the receiver; the configured parse itself
  -- lives in the oracle

/-- `GitAnalyzer.parseEndDate`: an empty string yields
`date.Date{Time: ga.dateConfig.CurrentTime, Period: date.Day}`;
otherwise the same parse-and-reject-zero rule as the start date. -/
def parseEndDate (ga : GitAnalyzer) (dpsParse : DpsOracle) (endDateStr : String) :
    Except GoErr DpsDate :=
  if endDateStr = "" then
    Except.ok { Time := ga.dateConfig.CurrentTime, Period := DpsPeriod.day }
  else
    match dpsParse endDateStr with
    | Option.none => Except.error GoErr.unparsableDate
    | Option.some parsedDate =>
        if parsedDate.Time.isZero then Except.error GoErr.unparsableDate
        else Except.ok parsedDate

/-- `GitAnalyzer.ParseAnalysisDates`. -/
def ParseAnalysisDates (ga : GitAnalyzer) (dpsParse : DpsOracle)
    (startDate endDate : String) : Except GoErr (DpsDate × DpsDate) :=
  if startDate = "" then Except.error GoErr.emptyStart
  else
    match parseStartDate ga dpsParse startDate with
    | Except.error e => Except.error e
    | Except.ok start =>
        match parseEndDate ga dpsParse endDate with
        | Except.error e => Except.error e
        | Except.ok endD => Except.ok (start, endD)

/-- Modelled from the spec: "truncated to day granularity" — the
instant with its intra-day offset zeroed.  This is the spec's notion,
kept separate from the source definitions so the two can be compared. -/
def truncateToDay (t : GoTime) : GoTime :=
  { day := t.day, timeOfDay := 0 }

/-- One commit as consumed by the walk: author display name, message
body, committer timestamp. -/
structure Commit where
  authorName : String
  message : String
  committerTime : GoTime
deriving DecidableEq, Repr

/-- Whether `sub` occurs at the head of `s`. -/
def strHasPre (sub s : List Char) : Bool :=
  match sub, s with
  | [], _ => true
  | _ :: _, [] => false
  | a :: as, b :: bs => a == b && strHasPre as bs

/-- Whether `sub` occurs contiguously anywhere in `s`. -/
def goContainsCore (sub : List Char) : List Char → Bool
  | [] => strHasPre sub []
  | b :: bs => strHasPre sub (b :: bs) || goContainsCore sub bs

/-- `strings.Contains` (contiguous substring containment). -/
def goContains (s sub : String) : Bool :=
  goContainsCore sub.data s.data

/-- `strings.ToLower`, as character-wise lowercasing of the string's
characters (the author names involved are ASCII). -/
def stringsToLower (s : String) : String :=
  String.mk (s.data.map Char.toLower)

/-- The hard-coded bot-exclusion test from `ListCommitsInRange`. -/
def isBot (authorName : String) : Bool :=
  goContains authorName "dependabot[bot]" || goContains authorName "kodiakhq[bot]"

/-- The per-commit filter body of the `ForEach` callback: skip bots
unconditionally, then apply the case-insensitive substring author
filter when `author` is non-empty. -/
def keepCommit (author : String) (cmt : Commit) : Bool :=
  !(isBot cmt.authorName) &&
    (author == "" ||
      goContains (stringsToLower cmt.authorName) (stringsToLower author))

/-- `worksummary.CommitRangeParams`; `Repo` is the acquired handle,
modelled as the branch's commit log in the order yielded by the walk
(`git.LogOrderCommitterTime`), `Option.none` standing for a nil pointer. -/
structure CommitRangeParams where
  Repo : Option (List Commit)
  Start : GoTime
  End : GoTime
  Author : String
deriving DecidableEq, Repr

/-- `validate.Struct` on `CommitRangeParams`: every field carries
`validate:"required"` — non-nil repo, non-zero times, non-empty author. -/
def validateCommitRangeParams (p : CommitRangeParams) : Bool :=
  p.Repo.isSome && !p.Start.isZero && !p.End.isZero && !(p.Author == "")

/-- go-git's `Since`/`Until` committer-time window, inclusive on both
ends (a commit is kept iff it is neither before `Since` nor after
`Until`). -/
def inWindow (since until_ t : GoTime) : Bool :=
  GoTime.leb since t && GoTime.leb t until_

/-- Whether the shared context's cancellation is observable at poll
step `idx`; `cancelAt = some k` says the context is done from the
`k`-th poll onward, `none` says it is never cancelled. -/
def ctxDone (cancelAt : Option Nat) (idx : Nat) : Bool :=
  match cancelAt with
  | Option.none => false
  | Option.some k => decide (k ≤ idx)

/-- The `commitIter.ForEach` loop: per commit, poll the context, apply
the bot and author filters, and append the surviving message to the
builder. -/
def corpusLoop (author : String) (cancelAt : Option Nat) :
    Nat → List Commit → Except GoErr String
  | _, [] => Except.ok ""
  | idx, cmt :: rest =>
    if ctxDone cancelAt idx then Except.error GoErr.ctxCancelled
    else
      match corpusLoop author cancelAt (idx + 1) rest with
      | Except.error e => Except.error e
      | Except.ok s =>
          Except.ok (if keepCommit author cmt then cmt.message ++ s else s)

/-- `GitAnalyzer.ListCommitsInRange`: validate the params, walk the
log restricted to the committer-time window, and run the filter loop. -/
def ListCommitsInRange (cancelAt : Option Nat) (params : CommitRangeParams) :
    Except GoErr String :=
  if validateCommitRangeParams params then
    match params.Repo with
    | Option.none => Except.error GoErr.invalidRangeParams
    | Option.some commits =>
        corpusLoop params.Author cancelAt 0
          (commits.filter fun c => inWindow params.Start params.End c.committerTime)
  else Except.error GoErr.invalidRangeParams

/-- The corpus the filter produces from a commit list: surviving
messages concatenated in walk order with no separator. -/
def corpusOf (author : String) : List Commit → String
  | [] => ""
  | cmt :: rest =>
      if keepCommit author cmt then cmt.message ++ corpusOf author rest
      else corpusOf author rest

/-- The in-window portion of the walk, in walk order. -/
def windowCommits (params : CommitRangeParams) : List Commit :=
  (params.Repo.getD []).filter fun c =>
    inWindow params.Start params.End c.committerTime

/-- What the stream delivers once its fragments are exhausted:
`io.EOF` (graceful end of stream) or a transport error from `Recv`. -/
inductive TailEvent
  | eof
  | recvErr
deriving DecidableEq, Repr

/-- Concatenation of a fragment list in arrival order. -/
def concatList : List String → String
  | [] => ""
  | s :: rest => s ++ concatList rest

/-- The `for { select { ... } }` receive loop of
`SummarizeCommitMessages`: at every step the context is polled first
(`case <-ctx.Done()` wins over `default` once the context is done);
otherwise the next fragment is received and appended to the builder.
Returns the accumulated text together with `some` error kind, or
`none` on graceful end of stream. -/
def recvLoop (tail : TailEvent) (cancelAt : Option Nat) :
    Nat → String → List String → String × Option GoErr
  | idx, acc, [] =>
    if ctxDone cancelAt idx then (acc, Option.some GoErr.ctxCancelled)
    else
      match tail with
      | TailEvent.eof => (acc, Option.none)
      | TailEvent.recvErr => (acc, Option.some GoErr.streamRecvFailed)
  | idx, acc, f :: rest =>
    if ctxDone cancelAt idx then (acc, Option.some GoErr.ctxCancelled)
    else recvLoop tail cancelAt (idx + 1) (acc ++ f) rest

/-- `OpenAIClient.SummarizeCommitMessages`: reject an empty corpus,
open the stream (`streamInitOk` is the oracle for
`CreateChatCompletionStream`), then consume fragments under the
cancellable receive loop.  The `String` component is what the builder
holds when the call returns (partial text accompanies errors). -/
def SummarizeCommitMessages (streamInitOk : Bool) (fragments : List String)
    (tail : TailEvent) (cancelAt : Option Nat) (commitMsgs : String) :
    String × Option GoErr :=
  if commitMsgs = "" then ("", Option.some GoErr.emptyCommitMsgs)
  else if streamInitOk then recvLoop tail cancelAt 0 "" fragments
  else ("", Option.some GoErr.streamInitFailed)

/-- The externally visible steps of one pipeline invocation, recorded
in the order they are performed. -/
inductive PipeAction
  | fetch
  | parseDates
  | listCommits
  | summarize
deriving DecidableEq, Repr

/-- `GitAnalyzer.CloneAndCheckout`: validate the two arguments before
any network activity, then perform the in-memory single-branch clone
(`cloneResult` is the oracle for `git.CloneContext`).  The trace
records whether the fetch was attempted. -/
def CloneAndCheckout (cloneResult : Except GoErr (List Commit))
    (repoURL branchName : String) :
    List PipeAction × Except GoErr (List Commit) :=
  if repoURL = "" then ([], Except.error GoErr.emptyRepoURL)
  else if branchName = "" then ([], Except.error GoErr.emptyBranch)
  else ([PipeAction.fetch], cloneResult)

/-- `gitsummary.GitSummaryRequest`. -/
structure GitSummaryRequest where
  RepoURL : String
  Branch : String
  StartDate : String
  EndDate : String
  Author : String
  APIKey : String
deriving DecidableEq, Repr

/-- `validate.Struct` on `GitSummaryRequest`: every field except
`EndDate` carries `validate:"required"`. -/
def validateGitSummaryRequest (r : GitSummaryRequest) : Bool :=
  !(r.RepoURL == "") && !(r.Branch == "") && !(r.StartDate == "") &&
    !(r.Author == "") && !(r.APIKey == "")

/-- The oracles for one invocation's external effects, plus the
process environment.  `commitCancelAt`/`fragmentCancelAt` are the two
poll sites' determinized views of the one shared context. -/
structure SummaryEnv where
  openaiKey : String
  cloneResult : Except GoErr (List Commit)
  dpsParse : DpsOracle
  streamInitOk : Bool
  fragments : List String
  tailEvent : TailEvent
  commitCancelAt : Option Nat
  fragmentCancelAt : Option Nat

/-- The fixed sentinel returned when no commit survives filtering. -/
def sentinelNoCommits : String := "No commits found in the specified date range."

/-- `GitSummaryTool.GenerateSummary`: clone, parse dates, list
commits, short-circuit on an empty corpus, otherwise summarize.  The
first component is the trace of steps performed, in order. -/
def GenerateSummary (ga : GitAnalyzer) (env : SummaryEnv)
    (req : GitSummaryRequest) : List PipeAction × Except GoErr String :=
  match CloneAndCheckout env.cloneResult req.RepoURL req.Branch with
  | (tc, Except.error e) => (tc, Except.error e)
  | (_, Except.ok repo) =>
    match ParseAnalysisDates ga env.dpsParse req.StartDate req.EndDate with
    | Except.error e => ([PipeAction.fetch, PipeAction.parseDates], Except.error e)
    | Except.ok (startDate, endDate) =>
      match ListCommitsInRange env.commitCancelAt
          { Repo := Option.some repo, Start := startDate.Time,
            End := endDate.Time, Author := req.Author } with
      | Except.error e =>
          ([PipeAction.fetch, PipeAction.parseDates, PipeAction.listCommits],
            Except.error e)
      | Except.ok commitMsgs =>
          if commitMsgs = "" then
            ([PipeAction.fetch, PipeAction.parseDates, PipeAction.listCommits],
              Except.ok sentinelNoCommits)
          else
            match SummarizeCommitMessages env.streamInitOk env.fragments
                env.tailEvent env.fragmentCancelAt commitMsgs with
            | (_, Option.some e) =>
                ([PipeAction.fetch, PipeAction.parseDates, PipeAction.listCommits,
                  PipeAction.summarize], Except.error e)
            | (s, Option.none) =>
                ([PipeAction.fetch, PipeAction.parseDates, PipeAction.listCommits,
                  PipeAction.summarize], Except.ok s)

/-- One value of Go's `map[string]interface\x7b\x7d` argument map: a string,
or some non-string value. -/
inductive ArgVal
  | str (s : String)
  | nonStr
deriving DecidableEq, Repr

/-- Go's unchecked type assertion `v.(string)`: `none` means the
assertion panics (missing key, i.e. nil interface, or non-string). -/
def assertString : Option ArgVal → Option String
  | Option.some (ArgVal.str s) => Option.some s
  | _ => Option.none

/-- The three ways a `Handler` invocation can end. -/
inductive HandlerOutcome
  | panicked
  | errored (e : GoErr)
  | ok (text : String)
deriving DecidableEq, Repr

/-- `GitSummaryTool.Handler`: build the request from the argument map
with unchecked `.(string)` assertions (`APIKey` comes from the
`OPENAI_API_KEY` environment variable, `end_date` via a comma-ok
assertion), validate it, construct the OpenAI client (which re-checks
the key), and run `GenerateSummary`. -/
def Handler (ga : GitAnalyzer) (env : SummaryEnv)
    (args : String → Option ArgVal) : HandlerOutcome :=
  match assertString (args "repo_url"), assertString (args "branch"),
        assertString (args "start_date"), assertString (args "author") with
  | Option.some repoURL, Option.some branch, Option.some startDate,
    Option.some author =>
      let endDate :=
        match args "end_date" with
        | Option.some (ArgVal.str s) => if s = "" then "" else s
        | _ => ""
      let params : GitSummaryRequest :=
        { RepoURL := repoURL, Branch := branch, StartDate := startDate,
          EndDate := endDate, Author := author, APIKey := env.openaiKey }
      if validateGitSummaryRequest params then
        if params.APIKey = "" then HandlerOutcome.errored GoErr.apiKeyRequired
        else
          match GenerateSummary ga env params with
          | (_, Except.error e) => HandlerOutcome.errored e
          | (_, Except.ok s) => HandlerOutcome.ok s
      else HandlerOutcome.errored GoErr.validationFailed
  | _, _, _, _ => HandlerOutcome.panicked

/-! ### Concrete fixtures used by counterexamples and witnesses -/

/-- A commit authored by the dependabot automation account. -/
def depCommit : Commit :=
  { authorName := "dependabot[bot]", message := "chore: bump dep\n",
    committerTime := { day := 19400, timeOfDay := 10 } }

/-- A commit authored by a human. -/
def janeCommit : Commit :=
  { authorName := "Jane Doe", message := "Fix parser bug\n",
    committerTime := { day := 19401, timeOfDay := 20 } }

/-- An analyzer whose configured clock is one hour past midnight. -/
def gaTest : GitAnalyzer :=
  { dateConfig := { CurrentTime := { day := 19874, timeOfDay := 3600 } } }

/-- A parse oracle recognizing exactly the string "2023-01-01". -/
def dpsTest : DpsOracle := fun s =>
  if s = "2023-01-01" then
    Option.some { Time := { day := 19358, timeOfDay := 0 }, Period := DpsPeriod.day }
  else Option.none

/-- A benign environment: clone yields an empty history, the stream
delivers two fragments and ends gracefully, nothing is cancelled. -/
def envTest : SummaryEnv :=
  { openaiKey := "sk-test", cloneResult := Except.ok [], dpsParse := dpsTest,
    streamInitOk := true, fragments := ["Work ", "Summary"],
    tailEvent := TailEvent.eof, commitCancelAt := Option.none,
    fragmentCancelAt := Option.none }

/-- A fully populated request. -/
def reqTest : GitSummaryRequest :=
  { RepoURL := "https://github.com/x/y.git", Branch := "main",
    StartDate := "2023-01-01", EndDate := "", Author := "jane",
    APIKey := "sk-test" }

/-- Whether an `Except` value is in the error state. -/
def isErr {α : Type} : Except GoErr α → Bool
  | Except.error _ => true
  | Except.ok _ => false

/-! ### Helper lemmas -/

/-- When the filter loop completes without an error, its result is the
separator-free concatenation of the surviving messages, in walk order. -/
theorem corpusLoop_ok_eq (author : String) (cancelAt : Option Nat) :
    ∀ (l : List Commit) (idx : Nat) (s : String),
      corpusLoop author cancelAt idx l = Except.ok s → s = corpusOf author l := by
  intro l
  induction l with
  | nil =>
      intro idx s h
      simp only [corpusLoop] at h
      cases h
      rfl
  | cons cmt rest ih =>
      intro idx s h
      simp only [corpusLoop] at h
      by_cases hc : ctxDone cancelAt idx = true
      · rw [if_pos hc] at h
        cases h
      · rw [if_neg hc] at h
        cases hrec : corpusLoop author cancelAt (idx + 1) rest with
        | error e => rw [hrec] at h; cases h
        | ok sRest =>
            rw [hrec] at h
            cases h
            simp only [corpusOf]
            rw [ih (idx + 1) sRest hrec]
  -- termination of the induction mirrors the list recursion of the loop

/-- Removing every bot-authored commit from a walk leaves the produced
corpus unchanged: bot messages never contribute. -/
theorem corpusOf_filter_bot (author : String) (l : List Commit) :
    corpusOf author l
      = corpusOf author (l.filter fun c => !(isBot c.authorName)) := by
  induction l with
  | nil => rfl
  | cons cmt rest ih =>
      cases hb : isBot cmt.authorName with
      | true =>
          have hk : keepCommit author cmt = false := by
            simp [keepCommit, hb]
          simp [corpusOf, List.filter_cons, hb, hk, ih]
      | false =>
          simp [corpusOf, List.filter_cons, hb, ih]

/-- Successful `ListCommitsInRange` results are exactly the corpus of
the in-window commits. -/
theorem listCommits_ok_eq (cancelAt : Option Nat) (params : CommitRangeParams)
    (corpus : String) (h : ListCommitsInRange cancelAt params = Except.ok corpus) :
    corpus = corpusOf params.Author (windowCommits params) := by
  unfold ListCommitsInRange at h
  by_cases hv : validateCommitRangeParams params = true
  · rw [if_pos hv] at h
    cases hr : params.Repo with
    | none => rw [hr] at h; cases h
    | some commits =>
        rw [hr] at h
        have hc := corpusLoop_ok_eq params.Author cancelAt _ 0 corpus h
        rw [hc]
        unfold windowCommits
        rw [hr]
        rfl
  · rw [if_neg hv] at h
    cases h

/-- A non-empty author filter keeps a commit only when the lowercased
author display name contains the lowercased filter. -/
theorem keepCommit_author_substring (author : String) (cmt : Commit)
    (hne : author ≠ "") (hk : keepCommit author cmt = true) :
    goContains (stringsToLower cmt.authorName) (stringsToLower author) = true := by
  have hbe : (author == "") = false := by
    simpa using hne
  simp [keepCommit, hbe] at hk
  exact hk.2

/-- The receive loop, cancelled at the `N`-th poll, returns the
accumulator extended by exactly the first `N` fragments, with the
cancellation error. -/
theorem recvLoop_cancel (tail : TailEvent) :
    ∀ (N idx : Nat) (acc : String) (frags : List String), N ≤ frags.length →
      recvLoop tail (Option.some (idx + N)) idx acc frags
        = (acc ++ concatList (frags.take N), Option.some GoErr.ctxCancelled) := by
  intro N
  induction N with
  | zero =>
      intro idx acc frags _
      have hc : ctxDone (Option.some idx) idx = true := by
        simp [ctxDone]
      cases frags with
      | nil =>
          rw [recvLoop.eq_def]
          simp [hc, concatList, String.append_empty]
      | cons f rest =>
          rw [recvLoop.eq_def]
          simp [hc, concatList, String.append_empty]
  | succ n ih =>
      intro idx acc frags hle
      cases frags with
      | nil => simp at hle
      | cons f rest =>
          have hc : ¬ ctxDone (Option.some (idx + (n + 1))) idx = true := by
            simp [ctxDone]
          rw [recvLoop.eq_def]
          simp only [hc, if_false, ite_false, Bool.false_eq_true]
          have harg : idx + (n + 1) = (idx + 1) + n := by omega
          rw [harg]
          have hle2 : n ≤ rest.length := by
            simpa using hle
          rw [ih (idx + 1) (acc ++ f) rest hle2]
          simp [concatList, String.append_assoc, List.take_succ_cons]

/-- The possible clone traces: no fetch (argument validation failed)
or exactly one fetch. -/
theorem cloneTrace_cases (r : Except GoErr (List Commit)) (u b : String) :
    (CloneAndCheckout r u b).1 = []
      ∨ (CloneAndCheckout r u b).1 = [PipeAction.fetch] := by
  unfold CloneAndCheckout
  by_cases hu : u = ""
  · rw [if_pos hu]; left; rfl
  · rw [if_neg hu]
    by_cases hb : b = ""
    · rw [if_pos hb]; left; rfl
    · rw [if_neg hb]; right; rfl

/-- Every pipeline trace is a prefix of
fetch, parseDates, listCommits, summarize. -/
theorem genSummary_trace_cases (ga : GitAnalyzer) (env : SummaryEnv)
    (req : GitSummaryRequest) :
    (GenerateSummary ga env req).1 = []
      ∨ (GenerateSummary ga env req).1 = [PipeAction.fetch]
      ∨ (GenerateSummary ga env req).1 = [PipeAction.fetch, PipeAction.parseDates]
      ∨ (GenerateSummary ga env req).1
          = [PipeAction.fetch, PipeAction.parseDates, PipeAction.listCommits]
      ∨ (GenerateSummary ga env req).1
          = [PipeAction.fetch, PipeAction.parseDates, PipeAction.listCommits,
              PipeAction.summarize] := by
  unfold GenerateSummary
  split
  · rename_i tc e heq
    have htc : (CloneAndCheckout env.cloneResult req.RepoURL req.Branch).1 = tc := by
      rw [heq]
    have hct := cloneTrace_cases env.cloneResult req.RepoURL req.Branch
    rw [htc] at hct
    rcases hct with h0 | h1
    · left; simp [h0]
    · right; left; simp [h1]
  · split
    · right; right; left; rfl
    · split
      · right; right; right; left; rfl
      · split
        · right; right; right; left; rfl
        · split
          · right; right; right; right; rfl
          · right; right; right; right; rfl

/-! ### Claims -/

/-- C1 counterexample: two in-window commits, one by "dependabot[bot]"
and one by "Jane Doe", with an empty author filter — `ListCommitsInRange`
does not return the corpus with Jane Doe's message: it fails the
`validate:"required"` check on `CommitRangeParams.Author`. -/
theorem c1_empty_author_filter_fails :
    ListCommitsInRange Option.none
        { Repo := Option.some [janeCommit, depCommit],
          Start := { day := 19358, timeOfDay := 0 },
          End := { day := 19874, timeOfDay := 0 }, Author := "" }
      = Except.error GoErr.invalidRangeParams := by
  decide

/-- C1 (amended): for every repository handle, date window and
cancellation schedule, an empty author filter makes `ListCommitsInRange`
fail with the parameter-validation error — the empty-filter
"no author filtering" branch of the loop is unreachable. -/
theorem c1_empty_author_always_validation_error (cancelAt : Option Nat)
    (params : CommitRangeParams) (h : params.Author = "") :
    ListCommitsInRange cancelAt params = Except.error GoErr.invalidRangeParams := by
  have hv : validateCommitRangeParams params = false := by
    simp [validateCommitRangeParams, h]
  unfold ListCommitsInRange
  simp [hv]

/-- Witness for C1 (amended) at a concrete handle and window. -/
theorem c1_empty_author_always_validation_error_witness :
    ListCommitsInRange (Option.some 3)
        { Repo := Option.some [depCommit],
          Start := { day := 19000, timeOfDay := 0 },
          End := { day := 19874, timeOfDay := 0 }, Author := "" }
      = Except.error GoErr.invalidRangeParams :=
  c1_empty_author_always_validation_error (Option.some 3) _ rfl

/-- An environment whose date oracle parses nothing. -/
def envBadDate : SummaryEnv := { envTest with dpsParse := fun _ => Option.none }

/-- C2 counterexample: with an unresolvable start date the pipeline
still performs the repository fetch first; the date error is produced
only after acquisition, so date resolution is not performed before
repository acquisition. -/
theorem c2_fetch_happens_despite_bad_date :
    GenerateSummary gaTest envBadDate reqTest
      = ([PipeAction.fetch, PipeAction.parseDates],
          Except.error GoErr.unparsableDate) := by
  decide

/-- C2 (amended): repository acquisition precedes date resolution —
whenever the date-resolution step occurs in a pipeline trace, the
fetch has already happened as the immediately preceding step. -/
theorem c2_fetch_precedes_date_resolution (ga : GitAnalyzer)
    (env : SummaryEnv) (req : GitSummaryRequest)
    (h : PipeAction.parseDates ∈ (GenerateSummary ga env req).1) :
    ((GenerateSummary ga env req).1).take 2
      = [PipeAction.fetch, PipeAction.parseDates] := by
  rcases genSummary_trace_cases ga env req with h0 | h1 | h2 | h3 | h4
  · rw [h0] at h; exact absurd h (by decide)
  · rw [h1] at h; exact absurd h (by decide)
  · rw [h2]; rfl
  · rw [h3]; rfl
  · rw [h4]; rfl

/-- Witness for C2 (amended) on a run that reaches date resolution. -/
theorem c2_fetch_precedes_date_resolution_witness :
    ((GenerateSummary gaTest envTest reqTest).1).take 2
      = [PipeAction.fetch, PipeAction.parseDates] :=
  c2_fetch_precedes_date_resolution gaTest envTest reqTest (by decide)

/-- C3 counterexample: with the configured clock one hour past
midnight, resolving a valid start date and an empty end date succeeds,
but the resolved end instant is the configured current time itself,
which differs from its day-granularity truncation. -/
theorem c3_end_not_truncated :
    ParseAnalysisDates gaTest dpsTest "2023-01-01" ""
        = Except.ok
            ({ Time := { day := 19358, timeOfDay := 0 }, Period := DpsPeriod.day },
              { Time := { day := 19874, timeOfDay := 3600 }, Period := DpsPeriod.day })
      ∧ truncateToDay { day := 19874, timeOfDay := 3600 }
          ≠ ({ day := 19874, timeOfDay := 3600 } : GoTime) := by
  constructor
  · decide
  · decide

/-- C3 (amended): for every valid non-empty start-date string and an
empty end-date string, resolution succeeds and the resolved end equals
the resolver's configured current time exactly, tagged with the day
granularity marker (the instant itself is not truncated). -/
theorem c3_end_is_current_time (ga : GitAnalyzer) (dps : DpsOracle)
    (startStr : String) (d : DpsDate)
    (h : parseStartDate ga dps startStr = Except.ok d) :
    ParseAnalysisDates ga dps startStr ""
      = Except.ok
          (d, { Time := ga.dateConfig.CurrentTime, Period := DpsPeriod.day }) := by
  have hne : startStr ≠ "" := by
    intro he
    rw [he] at h
    simp [parseStartDate] at h
  unfold ParseAnalysisDates
  rw [if_neg hne, h]
  rfl

/-- Witness for C3 (amended) at the concrete fixture. -/
theorem c3_end_is_current_time_witness :
    ParseAnalysisDates gaTest dpsTest "2023-01-01" ""
      = Except.ok
          ({ Time := { day := 19358, timeOfDay := 0 }, Period := DpsPeriod.day },
            { Time := { day := 19874, timeOfDay := 3600 }, Period := DpsPeriod.day }) :=
  c3_end_is_current_time gaTest dpsTest "2023-01-01" _ (by decide)

/-- An argument map missing the required `repo_url` key. -/
def argsNoRepoURL : String → Option ArgVal := fun k =>
  if k = "branch" then Option.some (ArgVal.str "main")
  else if k = "start_date" then Option.some (ArgVal.str "2023-01-01")
  else if k = "author" then Option.some (ArgVal.str "jane")
  else Option.none

/-- C4: invoking the handler without the required `repo_url` argument
does not produce a validation error — the unchecked `.(string)` type
assertion on the missing map entry panics before the declared
`validate:"required"` check can run. -/
theorem c4_missing_repo_url_panics :
    Handler gaTest envTest argsNoRepoURL = HandlerOutcome.panicked := by
  decide

/-- C5: whenever the collected corpus is the empty string, the
pipeline returns exactly the sentinel text with no error, and the
trace ends at the commit-listing step — the summarizer is never
invoked. -/
theorem c5_empty_corpus_sentinel (ga : GitAnalyzer) (env : SummaryEnv)
    (req : GitSummaryRequest) (repo : List Commit) (ds de : DpsDate)
    (hurl : req.RepoURL ≠ "") (hbr : req.Branch ≠ "")
    (hclone : env.cloneResult = Except.ok repo)
    (hdates : ParseAnalysisDates ga env.dpsParse req.StartDate req.EndDate
        = Except.ok (ds, de))
    (hlist : ListCommitsInRange env.commitCancelAt
        { Repo := Option.some repo, Start := ds.Time, End := de.Time,
          Author := req.Author } = Except.ok "") :
    GenerateSummary ga env req
      = ([PipeAction.fetch, PipeAction.parseDates, PipeAction.listCommits],
          Except.ok sentinelNoCommits) := by
  have hcl : CloneAndCheckout env.cloneResult req.RepoURL req.Branch
      = ([PipeAction.fetch], Except.ok repo) := by
    unfold CloneAndCheckout
    rw [if_neg hurl, if_neg hbr, hclone]
  unfold GenerateSummary
  split
  · rename_i tc e heq
    rw [hcl] at heq
    simp at heq
  · rename_i fst repo2 heq
    rw [hcl] at heq
    have hr2 : repo2 = repo := by
      have hsnd := congrArg Prod.snd heq
      simpa using hsnd.symm
    subst hr2
    simp only [hdates]
    simp only [hlist]
    rfl

/-- Witness for C5 on a repository with empty history. -/
theorem c5_empty_corpus_sentinel_witness :
    GenerateSummary gaTest envTest reqTest
      = ([PipeAction.fetch, PipeAction.parseDates, PipeAction.listCommits],
          Except.ok sentinelNoCommits) :=
  c5_empty_corpus_sentinel gaTest envTest reqTest []
    { Time := { day := 19358, timeOfDay := 0 }, Period := DpsPeriod.day }
    { Time := { day := 19874, timeOfDay := 3600 }, Period := DpsPeriod.day }
    (by decide) (by decide) (by decide) (by decide) (by decide)

/-- C6: every corpus `ListCommitsInRange` successfully produces equals
the corpus built after discarding all bot-authored commits — a commit
whose author name contains a bot marker contributes nothing, for every
date window and every author filter value. -/
theorem c6_bot_commits_excluded (cancelAt : Option Nat)
    (params : CommitRangeParams) (corpus : String)
    (h : ListCommitsInRange cancelAt params = Except.ok corpus) :
    corpus = corpusOf params.Author
        ((windowCommits params).filter fun c => !(isBot c.authorName)) := by
  rw [listCommits_ok_eq cancelAt params corpus h]
  exact corpusOf_filter_bot params.Author (windowCommits params)

/-- A handle holding Jane's commit and a dependabot commit, with the
author filter "jane". -/
def paramsJane : CommitRangeParams :=
  { Repo := Option.some [janeCommit, depCommit],
    Start := { day := 19358, timeOfDay := 0 },
    End := { day := 19874, timeOfDay := 0 }, Author := "jane" }

/-- Witness for C6 at a concrete corpus containing a bot commit. -/
theorem c6_bot_commits_excluded_witness :
    ("Fix parser bug\n" : String)
      = corpusOf "jane"
          ((windowCommits paramsJane).filter fun c => !(isBot c.authorName)) :=
  c6_bot_commits_excluded Option.none paramsJane "Fix parser bug\n" (by decide)

/-- C7: under a non-empty author filter, the produced corpus consists
exactly of the messages of kept commits, and a commit is kept only
when its lowercased author display name contains the lowercased filter
as a contiguous substring (case-insensitive, neither exact match nor
head-anchored). -/
theorem c7_author_filter_substring (cancelAt : Option Nat)
    (params : CommitRangeParams) (corpus : String)
    (hne : params.Author ≠ "")
    (h : ListCommitsInRange cancelAt params = Except.ok corpus) :
    corpus = corpusOf params.Author (windowCommits params)
      ∧ ∀ c : Commit, keepCommit params.Author c = true →
          goContains (stringsToLower c.authorName) (stringsToLower params.Author)
            = true := by
  refine ⟨listCommits_ok_eq cancelAt params corpus h, ?_⟩
  intro c hk
  exact keepCommit_author_substring params.Author c hne hk

/-- Witness for C7: the filter "jane" retains the commit authored by
"Jane Doe". -/
theorem c7_author_filter_substring_witness :
    ("Fix parser bug\n" : String) = corpusOf "jane" (windowCommits paramsJane)
      ∧ goContains (stringsToLower "Jane Doe") (stringsToLower "jane") = true := by
  have h := c7_author_filter_substring Option.none paramsJane "Fix parser bug\n"
    (by decide) (by decide)
  exact ⟨h.1, h.2 janeCommit (by decide)⟩

/-- C8: if the context is cancelled after exactly `N` fragments have
arrived and been appended, `SummarizeCommitMessages` returns the
concatenation, in arrival order, of exactly those `N` fragments
together with the non-nil cancellation error. -/
theorem c8_cancelled_returns_partial_text (commitMsgs : String)
    (fragments : List String) (tail : TailEvent) (N : Nat)
    (hmsgs : commitMsgs ≠ "") (hN : N ≤ fragments.length) :
    SummarizeCommitMessages true fragments tail (Option.some N) commitMsgs
      = (concatList (fragments.take N), Option.some GoErr.ctxCancelled) := by
  unfold SummarizeCommitMessages
  rw [if_neg hmsgs]
  have h := recvLoop_cancel tail N 0 "" fragments hN
  rw [Nat.zero_add] at h
  simp only [if_true, ite_true]
  rw [h]
  simp [String.empty_append]

/-- Witness for C8: three fragments available, cancelled after two. -/
theorem c8_cancelled_returns_partial_text_witness :
    SummarizeCommitMessages true ["Work ", "Summary", " done"] TailEvent.eof
        (Option.some 2) "corpus"
      = (concatList (List.take 2 ["Work ", "Summary", " done"]),
          Option.some GoErr.ctxCancelled) :=
  c8_cancelled_returns_partial_text "corpus" ["Work ", "Summary", " done"]
    TailEvent.eof 2 (by decide) (by decide)

/-- C9: when the parse oracle fails on a string, or parses it to the
zero instant, both date parsers reject it (start always, end when the
string is non-empty), and in general a successful parse result never
carries the zero instant. -/
theorem c9_bad_dates_rejected (ga : GitAnalyzer) (dps : DpsOracle) (s : String)
    (hbad : dps s = Option.none
      ∨ ∃ d0 : DpsDate, dps s = Option.some d0 ∧ d0.Time.isZero = true) :
    isErr (parseStartDate ga dps s) = true
      ∧ (s ≠ "" → isErr (parseEndDate ga dps s) = true)
      ∧ (∀ dps2 : DpsOracle, ∀ s2 : String, ∀ d : DpsDate,
          parseStartDate ga dps2 s2 = Except.ok d → d.Time.isZero = false)
      ∧ (∀ dps2 : DpsOracle, ∀ s2 : String, ∀ d : DpsDate, s2 ≠ "" →
          parseEndDate ga dps2 s2 = Except.ok d → d.Time.isZero = false) := by
  refine ⟨?_, ?_, ?_, ?_⟩
  · unfold parseStartDate
    by_cases hs : s = ""
    · rw [if_pos hs]; rfl
    · rw [if_neg hs]
      rcases hbad with hn | ⟨d0, hsome, hz⟩
      · rw [hn]; rfl
      · rw [hsome]; simp [hz, isErr]
  · intro hsne
    unfold parseEndDate
    rw [if_neg hsne]
    rcases hbad with hn | ⟨d0, hsome, hz⟩
    · rw [hn]; rfl
    · rw [hsome]; simp [hz, isErr]
  · intro dps2 s2 d h
    unfold parseStartDate at h
    by_cases hs : s2 = ""
    · rw [if_pos hs] at h; cases h
    · rw [if_neg hs] at h
      cases ho : dps2 s2 with
      | none => rw [ho] at h; cases h
      | some d0 =>
          simp only [ho] at h
          by_cases hz : d0.Time.isZero = true
          · rw [if_pos hz] at h; cases h
          · rw [if_neg hz] at h
            cases h
            simpa using hz
  · intro dps2 s2 d hsne h
    unfold parseEndDate at h
    rw [if_neg hsne] at h
    cases ho : dps2 s2 with
    | none => rw [ho] at h; cases h
    | some d0 =>
        simp only [ho] at h
        by_cases hz : d0.Time.isZero = true
        · rw [if_pos hz] at h; cases h
        · rw [if_neg hz] at h
          cases h
          simpa using hz

/-- An oracle that parses everything to the zero instant. -/
def dpsZero : DpsOracle := fun _ =>
  Option.some { Time := { day := 0, timeOfDay := 0 }, Period := DpsPeriod.day }

/-- Witness for C9: a string parsed to the zero instant is rejected by
both parsers, and a genuine success carries a non-zero instant. -/
theorem c9_bad_dates_rejected_witness :
    isErr (parseStartDate gaTest dpsZero "4 bogus 99") = true
      ∧ isErr (parseEndDate gaTest dpsZero "4 bogus 99") = true
      ∧ GoTime.isZero { day := 19358, timeOfDay := 0 } = false := by
  have h := c9_bad_dates_rejected gaTest dpsZero "4 bogus 99"
    (Or.inr ⟨_, rfl, rfl⟩)
  exact ⟨h.1, h.2.1 (by decide),
    h.2.2.1 dpsTest "2023-01-01"
      { Time := { day := 19358, timeOfDay := 0 }, Period := DpsPeriod.day }
      (by decide)⟩

/-- C10: the handler never reads the `api_key` argument — for a fixed
environment, two argument maps that agree everywhere except possibly
at `api_key` produce identical outcomes (the key used is always the
`OPENAI_API_KEY` environment value). -/
theorem c10_handler_ignores_api_key_arg (ga : GitAnalyzer) (env : SummaryEnv)
    (args1 args2 : String → Option ArgVal)
    (h : ∀ k : String, k ≠ "api_key" → args1 k = args2 k) :
    Handler ga env args1 = Handler ga env args2 := by
  have h1 := h "repo_url" (by decide)
  have h2 := h "branch" (by decide)
  have h3 := h "start_date" (by decide)
  have h4 := h "author" (by decide)
  have h5 := h "end_date" (by decide)
  unfold Handler
  rw [h1, h2, h3, h4, h5]

/-- A complete argument map without `api_key`. -/
def baseArgs : String → Option ArgVal := fun k =>
  if k = "repo_url" then Option.some (ArgVal.str "https://github.com/x/y.git")
  else if k = "branch" then Option.some (ArgVal.str "main")
  else if k = "start_date" then Option.some (ArgVal.str "2023-01-01")
  else if k = "author" then Option.some (ArgVal.str "jane")
  else Option.none

/-- `baseArgs` extended with a supplied `api_key` value. -/
def argsWithKey (apiKey : String) : String → Option ArgVal := fun k =>
  if k = "api_key" then Option.some (ArgVal.str apiKey) else baseArgs k

/-- Witness for C10: two calls differing only in the supplied
`api_key` argument behave identically. -/
theorem c10_handler_ignores_api_key_arg_witness :
    Handler gaTest envTest (argsWithKey "sk-AAAA")
      = Handler gaTest envTest (argsWithKey "sk-BBBB") :=
  c10_handler_ignores_api_key_arg gaTest envTest _ _ (by
    intro k hk
    unfold argsWithKey
    rw [if_neg hk, if_neg hk])

end DcrMcp
